import Mathlib

/-!
Shallow embedding of the Ammsa-sales dashboard (`src/app.py`) and proofs about
its specification.  The program loads a sales CSV with pandas, cleans four
numeric columns, converts the order dates, computes four KPI aggregates,
renders four charts as base64 PNG data URIs, and serves them as one HTML page.

Modelling conventions:
* A pandas `DataFrame` is a list of column names plus rows of cells aligned
  with those names.  A cell is a string, a (rational) number, or a date;
  Python floats are modelled as exact rationals.
* `pd.read_csv` is an external library call; its outcome (a raw frame, or an
  exception for a missing/corrupt file) is an input of the model.
* Python exceptions are modelled with `Except Exn`; the `try/except` block in
  `load_data` catches every `Exn`.
* Rational arithmetic inside the model is implemented with `mkRat` (so that it
  evaluates inside the kernel) and is proved equal to the ordinary field
  operations of `ℚ` below.
* The matplotlib figure registry (`plt.figure` / `plt.close`) is modelled as an
  explicit list of open figures threaded through `create_plot`; the raster
  backend is modelled as a deterministic serialisation of the drawn figure.
-/

namespace AmmsaSales

/-! ### Kernel-computable rational arithmetic -/

/-- Addition of rationals through `mkRat`, so that concrete instances reduce
inside the kernel (core `Rat.add` is kernel-irreducible). -/
def qadd (a b : ℚ) : ℚ := mkRat (a.num * b.den + b.num * a.den) (a.den * b.den)

/-- Negation of rationals through `mkRat`. -/
def qneg (b : ℚ) : ℚ := mkRat (-b.num) b.den

/-- Subtraction of rationals through `mkRat`. -/
def qsub (a b : ℚ) : ℚ := qadd a (qneg b)

/-- Sum of a list of rationals through `mkRat`. -/
def qsum (l : List ℚ) : ℚ := l.foldr qadd 0

theorem qadd_eq (a b : ℚ) : qadd a b = a + b := by
  rw [qadd, Rat.mkRat_eq_div]
  conv_rhs => rw [← Rat.num_div_den a, ← Rat.num_div_den b]
  have ha : ((a.den : ℚ)) ≠ 0 := by exact_mod_cast a.den_nz
  have hb : ((b.den : ℚ)) ≠ 0 := by exact_mod_cast b.den_nz
  push_cast
  field_simp

theorem qneg_eq (b : ℚ) : qneg b = -b := by
  rw [qneg, ← Rat.neg_mkRat, Rat.mkRat_eq_div, Rat.num_div_den]

theorem qsub_eq (a b : ℚ) : qsub a b = a - b := by
  rw [qsub, qadd_eq, qneg_eq, sub_eq_add_neg]

theorem qsum_eq (l : List ℚ) : qsum l = l.sum := by
  induction l with
  | nil => rfl
  | cons a l ih => rw [qsum, List.foldr_cons, qadd_eq, List.sum_cons, ← ih]; rfl

/-! ### Strings, digits and numeric parsing -/

/-- Decimal digit characters. -/
def digitChar : ℕ → Char
  | 0 => '0' | 1 => '1' | 2 => '2' | 3 => '3' | 4 => '4'
  | 5 => '5' | 6 => '6' | 7 => '7' | 8 => '8' | _ => '9'

/-- Characters of the decimal rendering of a natural number (fuel-driven so
that it reduces inside the kernel). -/
def natToChars : ℕ → ℕ → List Char
  | 0, _ => []
  | fuel + 1, n => if n < 10 then [digitChar n] else natToChars fuel (n / 10) ++ [digitChar (n % 10)]

/-- Decimal rendering of a natural number. -/
def natStr (n : ℕ) : String := String.mk (natToChars (n + 1) n)

/-- Decimal rendering of an integer. -/
def intStr (i : ℤ) : String :=
  if i < 0 then "-" ++ natStr i.natAbs else natStr i.natAbs

/-- Rendering of a rational, used where Python would stringify a float. -/
def ratStr (q : ℚ) : String :=
  if q.den = 1 then intStr q.num else intStr q.num ++ "/" ++ natStr q.den

/-- Numeric value of a list of decimal digit characters. -/
def digitsVal (cs : List Char) : ℕ := cs.foldl (fun a c => 10 * a + (c.toNat - 48)) 0

/-- Whether a list of characters is a nonempty run of decimal digits. -/
def isDigits (cs : List Char) : Bool := !cs.isEmpty && cs.all Char.isDigit

/-- The comma-stripping step of `load_data`: models
`.str.replace(',', '')`, which deletes every comma of the cell. -/
def stripCommas (s : String) : String := String.mk (s.data.filter (fun c => c != ','))

/-- Splits a character list at the first dot, returning the prefix and,
when a dot occurs, the remainder after it. -/
def splitAtDot : List Char → List Char × Option (List Char)
  | [] => ([], none)
  | c :: cs =>
    if c == '.' then ([], some cs)
    else
      let p := splitAtDot cs
      (c :: p.1, p.2)

/-- Parses an unsigned decimal numeral (with an optional fractional part) the
way Python `float` accepts plain decimal notation. -/
def parseUnsignedRat? (cs : List Char) : Option ℚ :=
  let p := splitAtDot cs
  match p.2 with
  | none => if isDigits p.1 then some (mkRat (Int.ofNat (digitsVal p.1)) 1) else none
  | some fp =>
    if fp.any (fun c => c == '.') then none
    else if p.1.isEmpty && fp.isEmpty then none
    else if p.1.all Char.isDigit && fp.all Char.isDigit then
      some (mkRat (Int.ofNat (digitsVal (p.1 ++ fp))) (10 ^ fp.length))
    else none

/-- Model of Python `float(s)` on plain decimal notation: an optional sign
followed by an unsigned decimal numeral. -/
def parseRat? (s : String) : Option ℚ :=
  match s.data with
  | [] => parseUnsignedRat? []
  | c :: rest =>
    if c == '-' then (parseUnsignedRat? rest).map qneg
    else if c == '+' then parseUnsignedRat? rest
    else parseUnsignedRat? (c :: rest)

/-- Two-digit zero-padded rendering of a month number. -/
def pad2 (n : ℕ) : String := if n < 10 then "0" ++ natStr n else natStr n

/-- Rendering of a pandas monthly period, as produced by
`dt.to_period('M').astype(str)`. -/
def formatYM (y m : ℕ) : String := natStr y ++ "-" ++ pad2 m

/-- Splits a character list at the dashes (groups between occurrences of
the `-` separator). -/
def splitOnDash : List Char → List (List Char)
  | [] => [[]]
  | c :: cs =>
    let r := splitOnDash cs
    if c == '-' then [] :: r
    else
      match r with
      | [] => [[c]]
      | g :: gs => (c :: g) :: gs

/-- Model of `pd.to_datetime` on ISO `YYYY-MM-DD` strings; any other shape is
a parse failure. -/
def parseDate? (s : String) : Option (ℕ × ℕ × ℕ) :=
  match splitOnDash s.data with
  | [ys, ms, ds] =>
    if isDigits ys && isDigits ms && isDigits ds then
      let y := digitsVal ys
      let m := digitsVal ms
      let d := digitsVal ds
      if 1 ≤ m && m ≤ 12 && 1 ≤ d && d ≤ 31 then some (y, m, d) else none
    else none
  | _ => none

/-- Decidable equality of `Except` values, used to evaluate the model on
concrete inputs. -/
instance {ε α : Type} [DecidableEq ε] [DecidableEq α] : DecidableEq (Except ε α) := fun a b =>
  match a, b with
  | .ok x, .ok y =>
    if h : x = y then .isTrue (by rw [h]) else .isFalse (fun hc => h (Except.ok.inj hc))
  | .error x, .error y =>
    if h : x = y then .isTrue (by rw [h]) else .isFalse (fun hc => h (Except.error.inj hc))
  | .ok _, .error _ => .isFalse (fun hc => Except.noConfusion hc)
  | .error _, .ok _ => .isFalse (fun hc => Except.noConfusion hc)

/-! ### The tabular data model -/

/-- A cell of the tabular dataset: a string, a number (Python float, modelled
exactly as a rational), or a timestamp produced by `pd.to_datetime`. -/
inductive Cell where
  | str (s : String)
  | num (q : ℚ)
  | date (y m d : ℕ)
deriving DecidableEq

/-- Whether a cell holds a number; a column whose cells all hold numbers has a
numeric dtype, any other column has dtype `object`. -/
def Cell.isNum : Cell → Bool
  | .num _ => true
  | _ => false

/-- Numeric value of a cell, with a default for non-numeric cells. -/
def Cell.toNumD (d : ℚ) : Cell → ℚ
  | .num q => q
  | _ => d

/-- Python stringification of a cell (`astype(str)`, group labels). -/
def Cell.pyStr : Cell → String
  | .str s => s
  | .num q => ratStr q
  | .date y m d => natStr y ++ "-" ++ pad2 m ++ "-" ++ pad2 d

/-- A data frame: column names plus rows of cells aligned with the names. -/
structure DataFrame where
  cols : List String
  rows : List (List Cell)
deriving DecidableEq

/-- The frame returned by `pd.DataFrame()` in the `except` branch of
`load_data`. -/
def emptyFrame : DataFrame := ⟨[], []⟩

/-- Model of the pandas `df.empty` property: true iff one of the axes has
length zero. -/
def DataFrame.empty (df : DataFrame) : Bool := df.rows.isEmpty || df.cols.isEmpty

/-- Index of a column name in a list of column names (first occurrence). -/
def colIdxAux (c : String) : List String → Option ℕ
  | [] => none
  | c0 :: rest => if c0 = c then some 0 else (colIdxAux c rest).map (· + 1)

/-- Index of a column in a frame; `none` models a `KeyError`. -/
def colIdx (df : DataFrame) (c : String) : Option ℕ := colIdxAux c df.cols

/-- Cell of a row at a column index (rows are aligned with `cols`). -/
def cellAt (i : ℕ) (r : List Cell) : Cell := r.getD i (Cell.str "")

/-- Values of the column at index `i`. -/
def colAt (df : DataFrame) (i : ℕ) : List Cell := df.rows.map (cellAt i)

/-- Model of `df[c]`: the cells of column `c`, or `none` for a `KeyError`. -/
def getCol? (df : DataFrame) (c : String) : Option (List Cell) :=
  (colIdx df c).map (colAt df)

/-- Model of `df[c] = vals`: replaces column `c` when present, otherwise
appends it as a new last column. -/
def setCol (df : DataFrame) (c : String) (vals : List Cell) : DataFrame :=
  match colIdx df c with
  | some i => ⟨df.cols, (df.rows.zip vals).map (fun p => p.1.set i p.2)⟩
  | none => ⟨df.cols ++ [c], (df.rows.zip vals).map (fun p => p.1 ++ [p.2])⟩

/-! ### Exceptions and aggregation -/

/-- Python exceptions that the program can raise.  The `try/except Exception`
block of `load_data` catches every one of them. -/
inductive Exn where
  | fileError (msg : String)
  | valueError (msg : String)
  | keyError (c : String)
  | typeError (msg : String)
deriving DecidableEq

/-- Message attached to an exception, as interpolated by
`print(f"Error loading data: {e}")`. -/
def Exn.message : Exn → String
  | .fileError m => m
  | .valueError m => m
  | .keyError c => c
  | .typeError m => m

/-- Model of `df[c].sum()`: `KeyError` when the column is absent, a fault when
the column is not numeric, otherwise the sum of the column. -/
def colSum (df : DataFrame) (c : String) : Except Exn ℚ :=
  match colIdx df c with
  | none => .error (.keyError c)
  | some i =>
    if (colAt df i).all Cell.isNum then .ok (qsum ((colAt df i).map (Cell.toNumD 0)))
    else .error (.typeError c)

/-- String ordering on character lists (by code point), written so that it
reduces inside the kernel; pandas sorts group keys with this order. -/
def chListLeb : List Char → List Char → Bool
  | [], _ => true
  | _ :: _, [] => false
  | a :: as, b :: bs =>
    if a.toNat < b.toNat then true
    else if b.toNat < a.toNat then false
    else chListLeb as bs

/-- String ordering used to sort group keys. -/
def strLeb (a b : String) : Bool := chListLeb a.data b.data

/-- Sorted list of the distinct group labels of the column at index `ki`
(pandas `groupby` with its default `sort=True`). -/
def groupKeys (ki : ℕ) (rows : List (List Cell)) : List String :=
  List.insertionSort (fun a b => strLeb a b = true) ((rows.map (fun r => (cellAt ki r).pyStr)).dedup)

/-- Sum of the `val` cells of the rows whose `ki` cell has label `k`. -/
def groupSumAt (ki vi : ℕ) (rows : List (List Cell)) (k : String) : ℚ :=
  qsum (((rows.filter (fun r => (cellAt ki r).pyStr == k)).map (fun r => (cellAt vi r).toNumD 0)))

/-- Model of `df.groupby(key)[val].sum()`: the group labels in sorted order,
each with the sum of the value column over its rows.  A missing column is a
`KeyError`; a non-numeric value column is a fault. -/
def groupBySum (df : DataFrame) (key val : String) : Except Exn (List (String × ℚ)) :=
  match colIdx df key with
  | none => .error (.keyError key)
  | some ki =>
    match colIdx df val with
    | none => .error (.keyError val)
    | some vi =>
      if (colAt df vi).all Cell.isNum then
        .ok ((groupKeys ki df.rows).map (fun k => (k, groupSumAt ki vi df.rows k)))
      else .error (.typeError val)

/-- Model of `Series.nlargest(n)`: the entries sorted by descending value
(ties keep their earlier position), truncated to the first `n`. -/
def nlargest (n : ℕ) (ps : List (String × ℚ)) : List (String × ℚ) :=
  (List.insertionSort (fun a b => b.2 ≤ a.2) ps).take n

/-- Tail of the `idxmax` scan: the label of the first entry holding the
maximal value, starting from a current best. -/
def idxmaxGo (best : String × ℚ) : List (String × ℚ) → String
  | [] => best.1
  | p :: ps => idxmaxGo (if best.2 < p.2 then p else best) ps

/-- Model of `Series.idxmax()`: label of the first occurrence of the maximal
value; raises a `ValueError` on an empty series. -/
def idxmaxE (ps : List (String × ℚ)) : Except Exn String :=
  match ps with
  | [] => .error (.valueError "attempt to get argmax of an empty sequence")
  | p :: rest => .ok (idxmaxGo p rest)

/-! ### The loader (`load_data`) -/

/-- Element-wise fallible conversion of a column, stopping at the first bad
element (the behaviour of vectorised pandas conversions on error). -/
def mapExcept {α β : Type} (f : α → Except Exn β) : List α → Except Exn (List β)
  | [] => .ok []
  | a :: as => do
    let b ← f a
    let bs ← mapExcept f as
    .ok (b :: bs)

/-- The four columns cleaned by `load_data`. -/
def colsToClean : List String :=
  ["Total Price", "Total Cost", "Expense Amount", "Outstanding Balance"]

/-- Cleaning of one cell: `astype(str)`, delete every comma, `astype(float)`;
an unparseable remainder raises a `ValueError`. -/
def cleanCell (cell : Cell) : Except Exn Cell :=
  match parseRat? (stripCommas cell.pyStr) with
  | some q => .ok (Cell.num q)
  | none => .error (.valueError (stripCommas cell.pyStr))

/-- Cleaning of one named column, as in the loop of `load_data`: skipped when
the column is absent or its dtype is already numeric, otherwise every cell is
stringified, stripped of commas and converted to float. -/
def cleanCol (df : DataFrame) (c : String) : Except Exn DataFrame :=
  match getCol? df c with
  | none => .ok df
  | some cells =>
    if cells.all Cell.isNum then .ok df
    else do
      let cleaned ← mapExcept cleanCell cells
      .ok (setCol df c cleaned)

/-- The cleaning loop of `load_data` over the four named columns. -/
def cleanNumericCols (df : DataFrame) : Except Exn DataFrame :=
  colsToClean.foldlM cleanCol df

/-- Conversion of one cell by `pd.to_datetime`: parse failure raises. -/
def dateCell? (cell : Cell) : Except Exn (ℕ × ℕ × ℕ) :=
  match parseDate? cell.pyStr with
  | some ymd => .ok ymd
  | none => .error (.valueError cell.pyStr)

/-- The date-conversion block of `load_data`: when an `Order Date` column is
present, parse it with `pd.to_datetime` and append the `Month_Year` column
derived from `dt.to_period('M')`. -/
def convertDates (df : DataFrame) : Except Exn DataFrame :=
  match getCol? df "Order Date" with
  | none => .ok df
  | some cells => do
    let dates ← mapExcept dateCell? cells
    let df1 := setCol df "Order Date" (dates.map (fun t => Cell.date t.1 t.2.1 t.2.2))
    .ok (setCol df1 "Month_Year" (dates.map (fun t => Cell.str (formatYM t.1 t.2.1))))

/-- The body of the `try` block of `load_data`.  Its input is the outcome of
`pd.read_csv('Ammsa_Sales.csv')`: a raw frame, or the exception raised for a
missing or unparseable file. -/
def loadSteps (readResult : Except Exn DataFrame) : Except Exn DataFrame := do
  let df ← readResult
  let df1 ← cleanNumericCols df
  convertDates df1

/-- Model of `load_data`: the `try` body, with every exception caught and
turned into `pd.DataFrame()`. -/
def load_data (readResult : Except Exn DataFrame) : DataFrame :=
  match loadSteps readResult with
  | .ok df => df
  | .error _ => emptyFrame

/-- Lines printed by `load_data`: one log line per caught exception. -/
def loadLog (readResult : Except Exn DataFrame) : List String :=
  match loadSteps readResult with
  | .ok _ => []
  | .error e => ["Error loading data: " ++ e.message]

/-! ### Plot rendering (`create_plot` and the four visualisations) -/

/-- The process-global plot style, fixed at import time by
`sns.set_theme(style="whitegrid")` and `plt.rcParams['figure.figsize']`. -/
structure Style where
  theme : String
  figWidth : ℕ
  figHeight : ℕ
deriving DecidableEq

/-- The style configured at module import time. -/
def moduleStyle : Style := ⟨"whitegrid", 10, 6⟩

/-- What the four visualisation functions draw on the current figure. -/
inductive PlotSpec where
  | linePlot (data : List (String × ℚ)) (title ylabel : String) (rotation : ℕ)
  | barPlot (data : List (String × ℚ)) (horizontal : Bool) (palette title : String) (rotation : ℕ)
  | piePlot (data : List (String × ℚ)) (title : String) (startAngle : ℕ) (palette : String)
deriving DecidableEq

/-- The data series drawn by a plot spec. -/
def PlotSpec.dataOf : PlotSpec → List (String × ℚ)
  | .linePlot data _ _ _ => data
  | .barPlot data _ _ _ _ => data
  | .piePlot data _ _ _ => data

/-- A matplotlib figure: the global style it was created under and, once a
visualisation function has run, its drawn content. -/
structure Figure where
  style : Style
  content : Option PlotSpec
deriving DecidableEq

/-- The mutable matplotlib figure registry (`plt.figure` / `plt.close`),
modelled as the list of currently open figures; the last one is current. -/
structure PlotState where
  figs : List Figure
deriving DecidableEq

/-- Serialisation of a data series, part of the deterministic model of the
PNG raster backend. -/
def serializePairs (ps : List (String × ℚ)) : String :=
  ps.foldr (fun p acc => "(" ++ p.1 ++ ":" ++ ratStr p.2 ++ ")" ++ acc) ""

/-- Deterministic serialisation of a drawn plot, standing in for the raster
backend of `plt.savefig(..., format='png')`. -/
def serializeSpec : PlotSpec → String
  | .linePlot data title ylabel rotation =>
    "line[" ++ serializePairs data ++ "]" ++ title ++ "|" ++ ylabel ++ "|" ++ natStr rotation
  | .barPlot data horizontal palette title rotation =>
    "bar[" ++ serializePairs data ++ "]" ++ (if horizontal then "h" else "v") ++ "|"
      ++ palette ++ "|" ++ title ++ "|" ++ natStr rotation
  | .piePlot data title startAngle palette =>
    "pie[" ++ serializePairs data ++ "]" ++ title ++ "|" ++ natStr startAngle ++ "|" ++ palette

/-- PNG bytes of a figure, as byte values of the serialised drawing. -/
def renderPng (fig : Figure) : List ℕ :=
  ("PNG:" ++ fig.style.theme ++ "|" ++ natStr fig.style.figWidth ++ "x"
    ++ natStr fig.style.figHeight ++ "|"
    ++ (match fig.content with
        | none => ""
        | some spec => serializeSpec spec)).data.map Char.toNat

/-- Character of the base64 alphabet at an index. -/
def b64Char (n : ℕ) : Char :=
  "ABCDEFGHIJKLMNOPQRSTUVWXYZabcdefghijklmnopqrstuvwxyz0123456789+/".data.getD n '='

/-- Base64 encoding of a chunk of at most three bytes. -/
def b64Chunk : List ℕ → List Char
  | [b0, b1, b2] =>
    [b64Char (b0 / 4), b64Char (b0 % 4 * 16 + b1 / 16), b64Char (b1 % 16 * 4 + b2 / 64),
      b64Char (b2 % 64)]
  | [b0, b1] => [b64Char (b0 / 4), b64Char (b0 % 4 * 16 + b1 / 16), b64Char (b1 % 16 * 4), '=']
  | [b0] => [b64Char (b0 / 4), b64Char (b0 % 4 * 16), '=', '=']
  | _ => []

/-- Base64 encoding of a byte list (`base64.b64encode`). -/
def b64Encode : List ℕ → List Char
  | b0 :: b1 :: b2 :: rest => b64Chunk [b0, b1, b2] ++ b64Encode rest
  | rest => b64Chunk rest

/-- The data URI built by `create_plot` from a drawn figure. -/
def dataUri (fig : Figure) : String :=
  "data:image/png;base64," ++ String.mk (b64Encode (renderPng fig))

/-- A fresh figure opened by `plt.figure()` under the current global style. -/
def freshFigure (style : Style) : Figure := ⟨style, none⟩

/-- Model of `create_plot(plot_func, df)`: open a fresh figure, run the
visualisation function on the frame, save the figure as a base64 data URI and
close it.  When the visualisation function raises, the exception propagates
and `plt.close()` is never reached, so the figure stays open. -/
def create_plot (style : Style) (plotFn : DataFrame → Except Exn PlotSpec) (df : DataFrame)
    (st : PlotState) : Except Exn String × PlotState :=
  let opened : PlotState := ⟨st.figs ++ [freshFigure style]⟩
  match plotFn df with
  | .error e => (.error e, opened)
  | .ok spec => (.ok (dataUri ⟨style, some spec⟩), ⟨opened.figs.dropLast⟩)

/-- Visualisation `plot_monthly_trend`: line plot of revenue summed per
month. -/
def plot_monthly_trend (df : DataFrame) : Except Exn PlotSpec := do
  let monthly ← groupBySum df "Month_Year" "Total Price"
  .ok (.linePlot monthly "Monthly Revenue Trend" "Revenue" 45)

/-- Visualisation `plot_top_products`: horizontal bars of the ten products
with the largest summed revenue. -/
def plot_top_products (df : DataFrame) : Except Exn PlotSpec := do
  let tops ← groupBySum df "Product" "Total Price"
  .ok (.barPlot (nlargest 10 tops) true "viridis" "Top 10 Products by Revenue" 0)

/-- Visualisation `plot_city_balance`: bars of the ten cities with the largest
summed outstanding balance. -/
def plot_city_balance (df : DataFrame) : Except Exn PlotSpec := do
  let cities ← groupBySum df "City" "Outstanding Balance"
  .ok (.barPlot (nlargest 10 cities) false "Reds_r" "Highest Outstanding Balance by City" 45)

/-- Visualisation `plot_expense_dist`: pie chart of expenses summed per
expense type. -/
def plot_expense_dist (df : DataFrame) : Except Exn PlotSpec := do
  let exps ← groupBySum df "Expense Type" "Expense Amount"
  .ok (.piePlot exps "Expense Type Distribution" 140 "pastel")

/-! ### The request handler (`dashboard`) -/

/-- The plain-text body returned when the loaded frame is empty. -/
def loadFailMessage : String :=
  "Error: Could not load Ammsa_Sales.csv. Please ensure the file is in the root directory."

/-- The values handed to `render_template('dashboard.html', ...)`; the cosmetic
`f"{v:,.0f}"` display formatting of the template is outside the model. -/
structure DashboardData where
  revenue : ℚ
  outstanding : ℚ
  profit : ℚ
  topCity : String
  plotTrend : String
  plotProducts : String
  plotBalance : String
  plotExpenses : String
deriving DecidableEq

/-- A successful HTTP response body: the plain-text error string or the
rendered HTML dashboard. -/
inductive Page where
  | plainText (s : String)
  | html (d : DashboardData)
deriving DecidableEq

/-- Model of the `dashboard` route handler.  `readResult` is the outcome of
`pd.read_csv` for this request and `st0` the matplotlib figure registry when
the request starts.  An `Except.error` outcome is an exception that escapes
the handler to the HTTP layer. -/
def dashboard (readResult : Except Exn DataFrame) (st0 : PlotState) : Except Exn Page :=
  let df := load_data readResult
  if df.empty then .ok (.plainText loadFailMessage)
  else do
    let totalRevenue ← colSum df "Total Price"
    let totalOutstanding ← colSum df "Outstanding Balance"
    let totalCost ← colSum df "Total Cost"
    let netProfit := qsub totalRevenue totalCost
    let cityGroups ← groupBySum df "City" "Total Price"
    let topCity ← idxmaxE cityGroups
    let r1 := create_plot moduleStyle plot_monthly_trend df st0
    let vizTrend ← r1.1
    let r2 := create_plot moduleStyle plot_top_products df r1.2
    let vizProducts ← r2.1
    let r3 := create_plot moduleStyle plot_city_balance df r2.2
    let vizBalance ← r3.1
    let r4 := create_plot moduleStyle plot_expense_dist df r3.2
    let vizExpenses ← r4.1
    .ok (.html ⟨totalRevenue, totalOutstanding, netProfit, topCity,
      vizTrend, vizProducts, vizBalance, vizExpenses⟩)

/-! ### Order lemmas for the key ordering and `nlargest` ordering -/

theorem char_eq_of_toNat_eq {a b : Char} (h : a.toNat = b.toNat) : a = b := by
  have hc := congrArg Char.ofNat h
  rwa [Char.ofNat_toNat, Char.ofNat_toNat] at hc

theorem chListLeb_total : ∀ a b : List Char, chListLeb a b = true ∨ chListLeb b a = true
  | [], _ => Or.inl rfl
  | _ :: _, [] => Or.inr rfl
  | a :: as, b :: bs => by
    by_cases h1 : a.toNat < b.toNat
    · left; simp [chListLeb, h1]
    · by_cases h2 : b.toNat < a.toNat
      · right; simp [chListLeb, h1, h2]
      · rcases chListLeb_total as bs with h | h
        · left; simp [chListLeb, h1, h2, h]
        · right; simp [chListLeb, h1, h2, h]

theorem chListLeb_trans :
    ∀ a b c : List Char, chListLeb a b = true → chListLeb b c = true → chListLeb a c = true
  | [], _, _, _, _ => rfl
  | _ :: _, [], _, h, _ => by simp [chListLeb] at h
  | _ :: _, _ :: _, [], _, h2 => by simp [chListLeb] at h2
  | a :: as, b :: bs, c :: cs, h1, h2 => by
    by_cases hac : a.toNat < c.toNat
    · simp [chListLeb, hac]
    · by_cases hca : c.toNat < a.toNat
      · exfalso
        by_cases hab : a.toNat < b.toNat <;> by_cases hba : b.toNat < a.toNat <;>
          by_cases hbc : b.toNat < c.toNat <;> by_cases hcb : c.toNat < b.toNat <;>
          simp [chListLeb, hab, hba, hbc, hcb] at h1 h2 <;> omega
      · simp only [chListLeb, if_neg hac, if_neg hca]
        by_cases hab : a.toNat < b.toNat <;> by_cases hba : b.toNat < a.toNat <;>
          by_cases hbc : b.toNat < c.toNat <;> by_cases hcb : c.toNat < b.toNat <;>
          simp [chListLeb, hab, hba, hbc, hcb] at h1 h2 <;>
          first
            | omega
            | exact chListLeb_trans as bs cs h1 h2

theorem chListLeb_antisymm :
    ∀ a b : List Char, chListLeb a b = true → chListLeb b a = true → a = b
  | [], [], _, _ => rfl
  | _ :: _, [], h, _ => by simp [chListLeb] at h
  | [], _ :: _, _, h2 => by simp [chListLeb] at h2
  | a :: as, b :: bs, h1, h2 => by
    simp only [chListLeb] at h1 h2
    by_cases hab : a.toNat < b.toNat <;> by_cases hba : b.toNat < a.toNat <;>
      simp [hab, hba] at h1 h2
    · omega
    · have heq : a = b := char_eq_of_toNat_eq (by omega)
      rw [heq, chListLeb_antisymm as bs h1 h2]

theorem strLeb_total (a b : String) : strLeb a b = true ∨ strLeb b a = true :=
  chListLeb_total a.data b.data

theorem strLeb_trans {a b c : String} (h1 : strLeb a b = true) (h2 : strLeb b c = true) :
    strLeb a c = true :=
  chListLeb_trans a.data b.data c.data h1 h2

theorem strLeb_antisymm {a b : String} (h1 : strLeb a b = true) (h2 : strLeb b a = true) :
    a = b :=
  String.ext (chListLeb_antisymm a.data b.data h1 h2)

instance : IsTotal String (fun a b => strLeb a b = true) := ⟨strLeb_total⟩

instance : IsTrans String (fun a b => strLeb a b = true) := ⟨fun _ _ _ => strLeb_trans⟩

instance : IsAntisymm String (fun a b => strLeb a b = true) := ⟨fun _ _ => strLeb_antisymm⟩

instance : IsTotal (String × ℚ) (fun a b => b.2 ≤ a.2) := ⟨fun a b => le_total b.2 a.2⟩

instance : IsTrans (String × ℚ) (fun a b => b.2 ≤ a.2) :=
  ⟨fun _ _ _ h1 h2 => le_trans h2 h1⟩

/-! ### Permutation helpers -/

theorem perm_all_eq {α : Type} (p : α → Bool) {l₁ l₂ : List α} (h : l₁.Perm l₂) :
    l₁.all p = l₂.all p := by
  rw [Bool.eq_iff_iff, List.all_eq_true, List.all_eq_true]
  constructor
  · intro ha x hx; exact ha x (h.mem_iff.mpr hx)
  · intro ha x hx; exact ha x (h.mem_iff.mp hx)

theorem insertionSort_eq_of_perm {l₁ l₂ : List String} (h : l₁.Perm l₂) :
    List.insertionSort (fun a b => strLeb a b = true) l₁
      = List.insertionSort (fun a b => strLeb a b = true) l₂ := by
  apply List.eq_of_perm_of_sorted (r := fun a b => strLeb a b = true)
  · exact ((List.perm_insertionSort _ l₁).trans h).trans (List.perm_insertionSort _ l₂).symm
  · exact List.sorted_insertionSort _ l₁
  · exact List.sorted_insertionSort _ l₂

theorem groupKeys_perm_eq (ki : ℕ) {rows₁ rows₂ : List (List Cell)} (h : rows₁.Perm rows₂) :
    groupKeys ki rows₁ = groupKeys ki rows₂ :=
  insertionSort_eq_of_perm ((h.map _).dedup)

theorem groupSumAt_perm_eq (ki vi : ℕ) {rows₁ rows₂ : List (List Cell)} (h : rows₁.Perm rows₂)
    (k : String) : groupSumAt ki vi rows₁ k = groupSumAt ki vi rows₂ k := by
  unfold groupSumAt
  rw [qsum_eq, qsum_eq]
  exact ((h.filter _).map _).sum_eq

/-! ### Basic lemmas about the embedding -/

theorem except_bind_pure {ε α : Type} (e : Except ε α) : e >>= pure = e := by
  cases e <;> rfl

theorem mapExcept_ok_length {α β : Type} (f : α → Except Exn β) :
    ∀ {l : List α} {out : List β}, mapExcept f l = .ok out → out.length = l.length := by
  intro l
  induction l with
  | nil => intro out h; cases h; rfl
  | cons a as ih =>
    intro out h
    simp only [mapExcept, bind, Except.bind] at h
    cases hf : f a with
    | error e => rw [hf] at h; cases h
    | ok b =>
      rw [hf] at h
      cases hm : mapExcept f as with
      | error e => rw [hm] at h; cases h
      | ok bs =>
        rw [hm] at h
        cases h
        simp [ih hm]

theorem mapExcept_pointwise {α β : Type} (f : α → Except Exn β) (g : α → β) :
    ∀ l : List α, (∀ a ∈ l, f a = .ok (g a)) → mapExcept f l = .ok (l.map g) := by
  intro l
  induction l with
  | nil => intro _; rfl
  | cons a as ih =>
    intro h
    simp only [mapExcept, bind, Except.bind, h a (by simp)]
    rw [ih (fun x hx => h x (by simp [hx]))]
    rfl

theorem mapExcept_map {α β γ : Type} (m : α → β) (f : β → Except Exn γ) (l : List α) :
    mapExcept f (l.map m) = mapExcept (fun a => f (m a)) l := by
  induction l with
  | nil => rfl
  | cons a as ih => simp [mapExcept, ih]

theorem colIdxAux_none_iff (c : String) : ∀ l : List String, colIdxAux c l = none ↔ c ∉ l := by
  intro l
  induction l with
  | nil => simp [colIdxAux]
  | cons c0 rest ih =>
    by_cases h : c0 = c
    · simp [colIdxAux, h]
    · simp only [colIdxAux, if_neg h, List.mem_cons]
      cases hr : colIdxAux c rest with
      | none =>
        constructor
        · intro _
          rintro (hc | hc)
          · exact h hc.symm
          · exact ih.mp hr hc
        · intro _; rfl
      | some i =>
        constructor
        · intro hc; cases hc
        · intro hc
          have hn : colIdxAux c rest = none := ih.mpr (fun hm => hc (Or.inr hm))
          rw [hr] at hn
          cases hn

theorem colIdxAux_some_getD (c : String) :
    ∀ (l : List String) (i : ℕ), colIdxAux c l = some i → i < l.length ∧ l.getD i "" = c := by
  intro l
  induction l with
  | nil => intro i h; cases h
  | cons c0 rest ih =>
    intro i h
    by_cases h0 : c0 = c
    · simp only [colIdxAux, if_pos h0] at h
      cases h
      simpa using h0
    · simp only [colIdxAux, if_neg h0] at h
      cases hr : colIdxAux c rest with
      | none => rw [hr] at h; cases h
      | some j =>
        rw [hr] at h
        cases h
        have hj := ih j hr
        exact ⟨by simpa using hj.1, by simpa using hj.2⟩

theorem colIdxAux_append_ne (c c' : String) (hne : c' ≠ c) (l : List String) :
    colIdxAux c' (l ++ [c]) = colIdxAux c' l := by
  induction l with
  | nil =>
    have hx : ¬c = c' := fun hc => hne hc.symm
    simp [colIdxAux, hx]
  | cons c0 rest ih => simp [colIdxAux, ih]

theorem cellAt_set_ne {i j : ℕ} (hne : i ≠ j) (r : List Cell) (v : Cell) :
    cellAt j (r.set i v) = cellAt j r := by
  simp [cellAt, List.getD_eq_getElem?_getD, List.getElem?_set_ne hne]

theorem cellAt_append_lt {j : ℕ} (r : List Cell) (v : Cell) (hlt : j < r.length) :
    cellAt j (r ++ [v]) = cellAt j r := by
  simp [cellAt, List.getD_eq_getElem?_getD, List.getElem?_append, hlt]

/-! ### Permutation invariance of the aggregations -/

theorem colSum_perm_eq (cols : List String) {rows₁ rows₂ : List (List Cell)}
    (h : rows₁.Perm rows₂) (c : String) :
    colSum ⟨cols, rows₁⟩ c = colSum ⟨cols, rows₂⟩ c := by
  simp only [colSum, colIdx, colAt]
  cases hidx : colIdxAux c cols with
  | none => rfl
  | some i =>
    have hmap : (rows₁.map (cellAt i)).Perm (rows₂.map (cellAt i)) := h.map _
    simp only []
    rw [perm_all_eq Cell.isNum hmap]
    by_cases hall : (rows₂.map (cellAt i)).all Cell.isNum = true
    · rw [if_pos hall, if_pos hall]
      rw [qsum_eq, qsum_eq, (hmap.map _).sum_eq]
    · rw [if_neg hall, if_neg hall]

theorem groupBySum_perm_eq (cols : List String) {rows₁ rows₂ : List (List Cell)}
    (h : rows₁.Perm rows₂) (key val : String) :
    groupBySum ⟨cols, rows₁⟩ key val = groupBySum ⟨cols, rows₂⟩ key val := by
  simp only [groupBySum, colIdx, colAt]
  cases hk : colIdxAux key cols with
  | none => rfl
  | some ki =>
    cases hv : colIdxAux val cols with
    | none => rfl
    | some vi =>
      have hmap : (rows₁.map (cellAt vi)).Perm (rows₂.map (cellAt vi)) := h.map _
      simp only []
      rw [perm_all_eq Cell.isNum hmap]
      by_cases hall : (rows₂.map (cellAt vi)).all Cell.isNum = true
      · rw [if_pos hall, if_pos hall, groupKeys_perm_eq ki h]
        have hfun : (fun k => (k, groupSumAt ki vi rows₁ k))
            = (fun k => (k, groupSumAt ki vi rows₂ k)) := by
          funext k
          rw [groupSumAt_perm_eq ki vi h]
        rw [hfun]
      · rw [if_neg hall, if_neg hall]

/-! ### Lemmas about `idxmax` and `nlargest` -/

theorem idxmaxGo_spec (best : String × ℚ) (ps : List (String × ℚ)) :
    ∃ v, (idxmaxGo best ps, v) ∈ best :: ps ∧ best.2 ≤ v ∧ ∀ p ∈ ps, p.2 ≤ v := by
  induction ps generalizing best with
  | nil => exact ⟨best.2, by simp [idxmaxGo]⟩
  | cons p rest ih =>
    rcases ih (if best.2 < p.2 then p else best) with ⟨v, hmem, hle, hall⟩
    refine ⟨v, ?_, ?_, ?_⟩
    · simp only [idxmaxGo]
      rcases List.mem_cons.mp hmem with hh | ht
      · by_cases hlt : best.2 < p.2
        · rw [if_pos hlt] at hh
          simp [hh, if_pos hlt]
        · rw [if_neg hlt] at hh
          simp [hh, if_neg hlt]
      · simp [ht]
    · by_cases hlt : best.2 < p.2
      · rw [if_pos hlt] at hle; exact le_of_lt (lt_of_lt_of_le hlt hle)
      · rwa [if_neg hlt] at hle
    · intro q hq
      rcases List.mem_cons.mp hq with hh | ht
      · by_cases hlt : best.2 < p.2
        · rw [if_pos hlt] at hle; rw [hh]; exact hle
        · rw [if_neg hlt] at hle
          rw [hh]; exact le_trans (le_of_not_lt hlt) hle
      · exact hall q ht

theorem idxmaxE_spec {ps : List (String × ℚ)} {k : String} (h : idxmaxE ps = .ok k) :
    ∃ v, (k, v) ∈ ps ∧ ∀ p ∈ ps, p.2 ≤ v := by
  cases ps with
  | nil => cases h
  | cons p rest =>
    simp only [idxmaxE] at h
    cases h
    rcases idxmaxGo_spec p rest with ⟨v, hmem, hle, hall⟩
    refine ⟨v, hmem, ?_⟩
    intro q hq
    rcases List.mem_cons.mp hq with hh | ht
    · rw [hh]; exact hle
    · exact hall q ht

theorem nlargest_length (n : ℕ) (ps : List (String × ℚ)) :
    (nlargest n ps).length = min n ps.length := by
  unfold nlargest
  rw [List.length_take, (List.perm_insertionSort _ ps).length_eq]

theorem nlargest_sorted (n : ℕ) (ps : List (String × ℚ)) :
    List.Sorted (fun a b => b.2 ≤ a.2) (nlargest n ps) :=
  List.Pairwise.sublist (List.take_sublist _ _) (List.sorted_insertionSort _ ps)

/-! ### Inversion lemmas for the handler -/

theorem colSum_ok_found {df : DataFrame} {c : String} {q : ℚ} (h : colSum df c = .ok q) :
    colIdx df c ≠ none := by
  intro hn
  rw [colSum, hn] at h
  cases h

theorem groupBySum_ok_found {df : DataFrame} {key val : String} {g : List (String × ℚ)}
    (h : groupBySum df key val = .ok g) : colIdx df key ≠ none ∧ colIdx df val ≠ none := by
  constructor
  · intro hn
    rw [groupBySum, hn] at h
    cases h
  · intro hn
    rw [groupBySum] at h
    cases hk : colIdx df key with
    | none => rw [hk] at h; cases h
    | some ki => rw [hk, hn] at h; cases h

theorem plot_monthly_trend_ok_inv {df : DataFrame} {s : PlotSpec}
    (h : plot_monthly_trend df = .ok s) :
    ∃ g, groupBySum df "Month_Year" "Total Price" = .ok g
      ∧ s = .linePlot g "Monthly Revenue Trend" "Revenue" 45 := by
  cases hg : groupBySum df "Month_Year" "Total Price" with
  | error e => simp [plot_monthly_trend, hg, bind, Except.bind] at h
  | ok g =>
    simp only [plot_monthly_trend, hg, bind, Except.bind] at h
    cases h
    exact ⟨g, rfl, rfl⟩

theorem plot_top_products_ok_inv {df : DataFrame} {s : PlotSpec}
    (h : plot_top_products df = .ok s) :
    ∃ g, groupBySum df "Product" "Total Price" = .ok g
      ∧ s = .barPlot (nlargest 10 g) true "viridis" "Top 10 Products by Revenue" 0 := by
  cases hg : groupBySum df "Product" "Total Price" with
  | error e => simp [plot_top_products, hg, bind, Except.bind] at h
  | ok g =>
    simp only [plot_top_products, hg, bind, Except.bind] at h
    cases h
    exact ⟨g, rfl, rfl⟩

theorem plot_city_balance_ok_inv {df : DataFrame} {s : PlotSpec}
    (h : plot_city_balance df = .ok s) :
    ∃ g, groupBySum df "City" "Outstanding Balance" = .ok g
      ∧ s = .barPlot (nlargest 10 g) false "Reds_r" "Highest Outstanding Balance by City" 45 := by
  cases hg : groupBySum df "City" "Outstanding Balance" with
  | error e => simp [plot_city_balance, hg, bind, Except.bind] at h
  | ok g =>
    simp only [plot_city_balance, hg, bind, Except.bind] at h
    cases h
    exact ⟨g, rfl, rfl⟩

theorem plot_expense_dist_ok_inv {df : DataFrame} {s : PlotSpec}
    (h : plot_expense_dist df = .ok s) :
    ∃ g, groupBySum df "Expense Type" "Expense Amount" = .ok g
      ∧ s = .piePlot g "Expense Type Distribution" 140 "pastel" := by
  cases hg : groupBySum df "Expense Type" "Expense Amount" with
  | error e => simp [plot_expense_dist, hg, bind, Except.bind] at h
  | ok g =>
    simp only [plot_expense_dist, hg, bind, Except.bind] at h
    cases h
    exact ⟨g, rfl, rfl⟩

theorem dashboard_ok_inv {readResult : Except Exn DataFrame} {st0 : PlotState} {p : Page}
    (h : dashboard readResult st0 = .ok p) :
    ((load_data readResult).empty = true ∧ p = .plainText loadFailMessage)
    ∨ ((load_data readResult).empty = false
        ∧ ∃ d, p = Page.html d
          ∧ colSum (load_data readResult) "Total Price" = .ok d.revenue
          ∧ colSum (load_data readResult) "Outstanding Balance" = .ok d.outstanding
          ∧ (∃ costs, colSum (load_data readResult) "Total Cost" = .ok costs
              ∧ d.profit = qsub d.revenue costs)
          ∧ (∃ groups, groupBySum (load_data readResult) "City" "Total Price" = .ok groups
              ∧ idxmaxE groups = .ok d.topCity)
          ∧ (∃ s1, plot_monthly_trend (load_data readResult) = Except.ok s1
              ∧ d.plotTrend = dataUri ⟨moduleStyle, some s1⟩)
          ∧ (∃ s2, plot_top_products (load_data readResult) = Except.ok s2
              ∧ d.plotProducts = dataUri ⟨moduleStyle, some s2⟩)
          ∧ (∃ s3, plot_city_balance (load_data readResult) = Except.ok s3
              ∧ d.plotBalance = dataUri ⟨moduleStyle, some s3⟩)
          ∧ (∃ s4, plot_expense_dist (load_data readResult) = Except.ok s4
              ∧ d.plotExpenses = dataUri ⟨moduleStyle, some s4⟩)) := by
  simp only [dashboard] at h
  by_cases hempty : (load_data readResult).empty
  · rw [if_pos hempty] at h
    cases h
    exact Or.inl ⟨hempty, rfl⟩
  · rw [if_neg hempty] at h
    right
    refine ⟨by simpa using hempty, ?_⟩
    cases hTP : colSum (load_data readResult) "Total Price" with
    | error e => rw [hTP] at h; simp [bind, Except.bind] at h
    | ok rev =>
    rw [hTP] at h
    simp only [bind, Except.bind] at h
    cases hOut : colSum (load_data readResult) "Outstanding Balance" with
    | error e => rw [hOut] at h; simp at h
    | ok outb =>
    rw [hOut] at h
    simp only [] at h
    cases hCost : colSum (load_data readResult) "Total Cost" with
    | error e => rw [hCost] at h; simp at h
    | ok costs =>
    rw [hCost] at h
    simp only [] at h
    cases hCity : groupBySum (load_data readResult) "City" "Total Price" with
    | error e => rw [hCity] at h; simp at h
    | ok groups =>
    rw [hCity] at h
    simp only [] at h
    cases hIdx : idxmaxE groups with
    | error e => rw [hIdx] at h; simp at h
    | ok city =>
    rw [hIdx] at h
    simp only [] at h
    cases hp1 : plot_monthly_trend (load_data readResult) with
    | error e => simp [create_plot, hp1] at h
    | ok s1 =>
    simp only [create_plot, hp1] at h
    cases hp2 : plot_top_products (load_data readResult) with
    | error e => simp [create_plot, hp2] at h
    | ok s2 =>
    simp only [create_plot, hp2] at h
    cases hp3 : plot_city_balance (load_data readResult) with
    | error e => simp [create_plot, hp3] at h
    | ok s3 =>
    simp only [create_plot, hp3] at h
    cases hp4 : plot_expense_dist (load_data readResult) with
    | error e => simp [create_plot, hp4] at h
    | ok s4 =>
    simp only [create_plot, hp4] at h
    cases h
    exact ⟨_, rfl, rfl, rfl, ⟨costs, rfl, rfl⟩, ⟨groups, rfl, hIdx⟩,
      ⟨s1, rfl, rfl⟩, ⟨s2, rfl, rfl⟩, ⟨s3, rfl, rfl⟩, ⟨s4, rfl, rfl⟩⟩

theorem colSum_ok_inv {df : DataFrame} {c : String} {q : ℚ} (h : colSum df c = .ok q) :
    ∃ i, colIdx df c = some i ∧ q = ((colAt df i).map (Cell.toNumD 0)).sum := by
  cases hi : colIdx df c with
  | none => rw [colSum, hi] at h; cases h
  | some i =>
    rw [colSum, hi] at h
    have h2 : (if (colAt df i).all Cell.isNum = true
        then Except.ok (qsum ((colAt df i).map (Cell.toNumD 0)))
        else Except.error (Exn.typeError c)) = Except.ok q := h
    by_cases hall : (colAt df i).all Cell.isNum = true
    · rw [if_pos hall] at h2
      cases h2
      exact ⟨i, rfl, qsum_eq _⟩
    · rw [if_neg hall] at h2
      cases h2

/-! ### Concrete fixtures used by the witnesses -/

/-- First fixture row: an order from Cairo. -/
def wRow1 : List Cell :=
  [Cell.str "2024-01-05", Cell.str "1,200", Cell.str "800", Cell.str "50",
    Cell.str "100", Cell.str "Widget", Cell.str "Cairo", Cell.str "Rent"]

/-- Second fixture row: an order from Alexandria. -/
def wRow2 : List Cell :=
  [Cell.str "2024-02-11", Cell.str "2,400", Cell.str "1,000", Cell.str "70",
    Cell.str "300", Cell.str "Gadget", Cell.str "Alexandria", Cell.str "Fuel"]

/-- The fixture columns, matching the schema assumed by the handler. -/
def wCols : List String :=
  ["Order Date", "Total Price", "Total Cost", "Expense Amount", "Outstanding Balance",
    "Product", "City", "Expense Type"]

/-- A two-row sales fixture. -/
def wDf : DataFrame := ⟨wCols, [wRow1, wRow2]⟩

/-- The read outcome for a missing CSV file. -/
def wMissing : Except Exn DataFrame := .error (.fileError "No such file or directory")

/-- Projection of the dashboard data out of a response, with a default. -/
def pageData : Except Exn Page → DashboardData
  | .ok (.html d) => d
  | _ => ⟨0, 0, 0, "", "", "", "", ""⟩

/-- The dashboard data rendered for the fixture. -/
def wD : DashboardData := pageData (dashboard (.ok wDf) ⟨[]⟩)

/-! ### Claim theorems -/

/-- C1: when `pd.read_csv` raises (missing file) or the cleaning/date
conversion raises (corrupt file), `load_data` logs the error and returns the
empty frame, and the `dashboard` handler then returns the plain-text error
string instead of the HTML page. -/
theorem load_failure_yields_error_page (readResult : Except Exn DataFrame) (e : Exn)
    (h : loadSteps readResult = .error e) :
    load_data readResult = emptyFrame
    ∧ loadLog readResult = ["Error loading data: " ++ e.message]
    ∧ ∀ st0, dashboard readResult st0 = .ok (.plainText loadFailMessage) := by
  have h1 : load_data readResult = emptyFrame := by rw [load_data, h]
  refine ⟨h1, by rw [loadLog, h], fun st0 => ?_⟩
  simp [dashboard, h1, emptyFrame, DataFrame.empty]

/-- Witness for C1 at the missing-file read outcome. -/
theorem load_failure_yields_error_page_w :
    dashboard wMissing ⟨[]⟩ = .ok (.plainText loadFailMessage) :=
  (load_failure_yields_error_page wMissing (.fileError "No such file or directory")
    (by rfl)).2.2 ⟨[]⟩

/-- C2: a successfully rendered dashboard page carries exactly the four KPI
statistics of the loaded frame: total revenue is the sum of the `Total Price`
column, total outstanding the sum of the `Outstanding Balance` column, net
profit is total revenue minus the sum of the `Total Cost` column, and the top
city attains the maximal group-summed `Total Price` among the city groups. -/
theorem dashboard_kpis (readResult : Except Exn DataFrame) (st0 : PlotState) (d : DashboardData)
    (h : dashboard readResult st0 = .ok (.html d)) :
    ∃ ip io ic,
      colIdx (load_data readResult) "Total Price" = some ip
      ∧ colIdx (load_data readResult) "Outstanding Balance" = some io
      ∧ colIdx (load_data readResult) "Total Cost" = some ic
      ∧ d.revenue = ((colAt (load_data readResult) ip).map (Cell.toNumD 0)).sum
      ∧ d.outstanding = ((colAt (load_data readResult) io).map (Cell.toNumD 0)).sum
      ∧ d.profit = d.revenue - ((colAt (load_data readResult) ic).map (Cell.toNumD 0)).sum
      ∧ ∃ groups, groupBySum (load_data readResult) "City" "Total Price" = .ok groups
          ∧ ∃ v, (d.topCity, v) ∈ groups ∧ ∀ p ∈ groups, p.2 ≤ v := by
  rcases dashboard_ok_inv h with ⟨_, hp⟩ | ⟨_, d2, hd2, hTP, hOut, ⟨costs, hCost, hProfit⟩,
    ⟨groups, hCity, hIdx⟩, _⟩
  · cases hp
  · cases hd2
    rcases colSum_ok_inv hTP with ⟨ip, hip, hrev⟩
    rcases colSum_ok_inv hOut with ⟨io, hio, hout⟩
    rcases colSum_ok_inv hCost with ⟨ic, hic, hcost⟩
    refine ⟨ip, io, ic, hip, hio, hic, hrev, hout, ?_, groups, hCity, ?_⟩
    · rw [hProfit, qsub_eq, hcost]
    · exact idxmaxE_spec hIdx

/-- Witness for C2 at the two-row fixture. -/
theorem dashboard_kpis_w :
    ∃ ip io ic,
      colIdx (load_data (.ok wDf)) "Total Price" = some ip
      ∧ colIdx (load_data (.ok wDf)) "Outstanding Balance" = some io
      ∧ colIdx (load_data (.ok wDf)) "Total Cost" = some ic
      ∧ wD.revenue = ((colAt (load_data (.ok wDf)) ip).map (Cell.toNumD 0)).sum
      ∧ wD.outstanding = ((colAt (load_data (.ok wDf)) io).map (Cell.toNumD 0)).sum
      ∧ wD.profit = wD.revenue - ((colAt (load_data (.ok wDf)) ic).map (Cell.toNumD 0)).sum
      ∧ ∃ groups, groupBySum (load_data (.ok wDf)) "City" "Total Price" = .ok groups
          ∧ ∃ v, (wD.topCity, v) ∈ groups ∧ ∀ p ∈ groups, p.2 ≤ v :=
  dashboard_kpis (.ok wDf) ⟨[]⟩ wD (by decide)

/-- C5: the aggregations of the handler (the KPI column sums, the group-by
sums feeding the four charts, and the top-city argmax) give the same result on
any permutation of the rows of a frame. -/
theorem aggregations_perm_invariant (cols : List String) (rows₁ rows₂ : List (List Cell))
    (h : rows₁.Perm rows₂) :
    (∀ c, colSum ⟨cols, rows₁⟩ c = colSum ⟨cols, rows₂⟩ c)
    ∧ (∀ key val, groupBySum ⟨cols, rows₁⟩ key val = groupBySum ⟨cols, rows₂⟩ key val)
    ∧ Except.bind (groupBySum ⟨cols, rows₁⟩ "City" "Total Price") idxmaxE
        = Except.bind (groupBySum ⟨cols, rows₂⟩ "City" "Total Price") idxmaxE
    ∧ plot_monthly_trend ⟨cols, rows₁⟩ = plot_monthly_trend ⟨cols, rows₂⟩
    ∧ plot_top_products ⟨cols, rows₁⟩ = plot_top_products ⟨cols, rows₂⟩
    ∧ plot_city_balance ⟨cols, rows₁⟩ = plot_city_balance ⟨cols, rows₂⟩
    ∧ plot_expense_dist ⟨cols, rows₁⟩ = plot_expense_dist ⟨cols, rows₂⟩ := by
  have hg := groupBySum_perm_eq cols h
  refine ⟨colSum_perm_eq cols h, hg, by rw [hg], ?_, ?_, ?_, ?_⟩
  · simp [plot_monthly_trend, hg]
  · simp [plot_top_products, hg]
  · simp [plot_city_balance, hg]
  · simp [plot_expense_dist, hg]

/-- Witness for C5: the revenue sum is unchanged when the two fixture rows are
swapped. -/
theorem aggregations_perm_invariant_w :
    colSum ⟨wCols, [wRow1, wRow2]⟩ "Total Price" = colSum ⟨wCols, [wRow2, wRow1]⟩ "Total Price" :=
  (aggregations_perm_invariant wCols [wRow1, wRow2] [wRow2, wRow1]
    (List.Perm.swap wRow2 wRow1 [])).1 "Total Price"

/-- C7: each of the four chart functions rendered through `create_plot` is a
pure function of the frame: on equal input frames it produces the same base64
data URI, whatever the state of the matplotlib figure registry. -/
theorem chart_render_pure (df₁ df₂ : DataFrame) (h : df₁ = df₂) (st₁ st₂ : PlotState) :
    ∀ plotFn ∈ [plot_monthly_trend, plot_top_products, plot_city_balance, plot_expense_dist],
      (create_plot moduleStyle plotFn df₁ st₁).1 = (create_plot moduleStyle plotFn df₂ st₂).1 := by
  subst h
  intro plotFn _
  cases hp : plotFn df₁ <;> simp [create_plot, hp]

/-- Witness for C7: the trend chart of the fixture is the same from an empty
figure registry and from one with a figure already open. -/
theorem chart_render_pure_w :
    (create_plot moduleStyle plot_monthly_trend wDf ⟨[]⟩).1
      = (create_plot moduleStyle plot_monthly_trend wDf ⟨[freshFigure moduleStyle]⟩).1 :=
  chart_render_pure wDf wDf rfl ⟨[]⟩ ⟨[freshFigure moduleStyle]⟩ plot_monthly_trend (by simp)

/-- C4 (amended): each top-N selection used by the charts returns
`min 10 (number of groups)` rows, sorted in descending order of the summed
value. -/
theorem topn_selection (df : DataFrame) :
    (∀ g s, groupBySum df "Product" "Total Price" = .ok g →
        plot_top_products df = .ok s →
        s.dataOf.length = min 10 g.length
          ∧ List.Sorted (fun a b => b.2 ≤ a.2) s.dataOf)
    ∧ (∀ g s, groupBySum df "City" "Outstanding Balance" = .ok g →
        plot_city_balance df = .ok s →
        s.dataOf.length = min 10 g.length
          ∧ List.Sorted (fun a b => b.2 ≤ a.2) s.dataOf) := by
  constructor
  · intro g s hg hs
    rcases plot_top_products_ok_inv hs with ⟨g2, hg2, hs2⟩
    rw [hg] at hg2
    cases hg2
    rw [hs2]
    exact ⟨nlargest_length 10 g, nlargest_sorted 10 g⟩
  · intro g s hg hs
    rcases plot_city_balance_ok_inv hs with ⟨g2, hg2, hs2⟩
    rw [hg] at hg2
    cases hg2
    rw [hs2]
    exact ⟨nlargest_length 10 g, nlargest_sorted 10 g⟩

/-- One-row frame with a single product group, on which the top-10 selection
cannot return ten rows. -/
def cexDf : DataFrame :=
  ⟨["Product", "Total Price", "City", "Outstanding Balance"],
    [[Cell.str "Widget", Cell.num 5, Cell.str "Cairo", Cell.num 1]]⟩

/-- C4 counterexample: on `cexDf` the top-products selection of the chart
returns exactly one row, not ten, refuting the claim that it returns exactly
ten rows for every table. -/
theorem topn_selection_cex :
    Except.map (fun s => s.dataOf.length) (plot_top_products cexDf) = Except.ok 1
    ∧ Except.map (fun s => s.dataOf.length) (plot_top_products cexDf) ≠ Except.ok 10 := by
  constructor
  · decide
  · decide

/-- Witness for the amended C4 at `cexDf`. -/
theorem topn_selection_w :
    (PlotSpec.barPlot [("Widget", 5)] true "viridis" "Top 10 Products by Revenue" 0).dataOf.length
        = min 10 [(("Widget" : String), (5 : ℚ))].length
      ∧ List.Sorted (fun a b => b.2 ≤ a.2)
        (PlotSpec.barPlot [("Widget", 5)] true "viridis"
          "Top 10 Products by Revenue" 0).dataOf :=
  (topn_selection cexDf).1 [("Widget", 5)]
    (PlotSpec.barPlot [("Widget", 5)] true "viridis" "Top 10 Products by Revenue" 0)
    (by decide) (by decide)

/-- Columns that the aggregations of the handler read. -/
def requiredCols : List String :=
  ["Total Price", "Outstanding Balance", "Total Cost", "City",
    "Month_Year", "Product", "Expense Type", "Expense Amount"]

/-- C6: when the loaded frame is non-empty but lacks any column an aggregation
needs, the handler does not catch the resulting exception: the request ends in
an error escaping to the HTTP layer, not in a page. -/
theorem schema_mismatch_escapes (readResult : Except Exn DataFrame) (st0 : PlotState)
    (c : String) (hc : c ∈ requiredCols)
    (hne : (load_data readResult).empty = false)
    (hmiss : colIdx (load_data readResult) c = none) :
    ∃ e, dashboard readResult st0 = .error e := by
  cases hd : dashboard readResult st0 with
  | error e => exact ⟨e, rfl⟩
  | ok p =>
    exfalso
    rcases dashboard_ok_inv hd with ⟨hempty, _⟩ |
      ⟨_, d, _, hTP, hOut, ⟨costs, hCost, _⟩, ⟨groups, hCity, _⟩,
        ⟨s1, hp1, _⟩, ⟨s2, hp2, _⟩, ⟨s3, hp3, _⟩, ⟨s4, hp4, _⟩⟩
    · rw [hne] at hempty; cases hempty
    · rcases plot_monthly_trend_ok_inv hp1 with ⟨g1, hg1, _⟩
      rcases plot_top_products_ok_inv hp2 with ⟨g2, hg2, _⟩
      rcases plot_expense_dist_ok_inv hp4 with ⟨g4, hg4, _⟩
      simp only [requiredCols, List.mem_cons, List.not_mem_nil, or_false] at hc
      rcases hc with rfl | rfl | rfl | rfl | rfl | rfl | rfl | rfl
      · exact colSum_ok_found hTP hmiss
      · exact colSum_ok_found hOut hmiss
      · exact colSum_ok_found hCost hmiss
      · exact (groupBySum_ok_found hCity).1 hmiss
      · exact (groupBySum_ok_found hg1).1 hmiss
      · exact (groupBySum_ok_found hg2).1 hmiss
      · exact (groupBySum_ok_found hg4).1 hmiss
      · exact (groupBySum_ok_found hg4).2 hmiss

/-- A one-row frame lacking the `Total Price` column. -/
def wNoPriceDf : DataFrame := ⟨["City"], [[Cell.str "Cairo"]]⟩

/-- Witness for C6: a non-empty frame without `Total Price` makes the handler
raise. -/
theorem schema_mismatch_escapes_w :
    ∃ e, dashboard (.ok wNoPriceDf) ⟨[]⟩ = .error e :=
  schema_mismatch_escapes (.ok wNoPriceDf) ⟨[]⟩ "Total Price"
    (by decide) (by decide) (by decide)

/-! ### Lemmas about loading a zero-row frame (C8) -/

theorem getCol?_rows_nil {df : DataFrame} (h : df.rows = []) {c : String} {cells : List Cell}
    (hg : getCol? df c = some cells) : cells = [] := by
  rw [getCol?] at hg
  cases hi : colIdx df c with
  | none => rw [hi] at hg; cases hg
  | some i =>
    rw [hi] at hg
    cases hg
    simp [colAt, h]

theorem setCol_rows_nil {df : DataFrame} (h : df.rows = []) (c : String) (vals : List Cell) :
    (setCol df c vals).rows = [] := by
  rw [setCol]
  cases colIdx df c <;> simp [h]

theorem cleanCol_rows_nil {df : DataFrame} (h : df.rows = []) (c : String) :
    cleanCol df c = .ok df := by
  rw [cleanCol]
  cases hg : getCol? df c with
  | none => rfl
  | some cells =>
    have hc0 : cells = [] := getCol?_rows_nil h hg
    subst hc0
    rfl

theorem cleanNumericCols_rows_nil {df : DataFrame} (h : df.rows = []) :
    cleanNumericCols df = .ok df := by
  rw [cleanNumericCols, colsToClean]
  simp only [List.foldlM, cleanCol_rows_nil h, bind, Except.bind]
  rfl

theorem convertDates_rows_nil {df : DataFrame} (h : df.rows = []) :
    ∃ df2, convertDates df = .ok df2 ∧ df2.rows = [] := by
  rw [convertDates]
  cases hg : getCol? df "Order Date" with
  | none => exact ⟨df, rfl, h⟩
  | some cells =>
    have hc0 : cells = [] := getCol?_rows_nil h hg
    subst hc0
    exact ⟨_, rfl, setCol_rows_nil (setCol_rows_nil h _ _) _ _⟩

/-- C8: a CSV that exists and parses but holds zero data rows gets the same
plain-text load-failure answer as a missing file: the endpoint conflates the
two, and never renders an HTML page for an empty table. -/
theorem empty_csv_conflated (df0 : DataFrame) (h : df0.rows = []) (st0 : PlotState) :
    dashboard (.ok df0) st0 = .ok (.plainText loadFailMessage)
    ∧ dashboard (.ok df0) st0 = dashboard wMissing st0 := by
  rcases convertDates_rows_nil h with ⟨df2, hcd, hrows⟩
  have hstep : loadSteps (.ok df0) = .ok df2 := by
    simp [loadSteps, cleanNumericCols_rows_nil h, hcd, bind, Except.bind]
  have hld : load_data (.ok df0) = df2 := by rw [load_data, hstep]
  have hempty : df2.empty = true := by simp [DataFrame.empty, hrows]
  have h2 : dashboard (.ok df0) st0 = .ok (.plainText loadFailMessage) := by
    simp [dashboard, hld, hempty]
  exact ⟨h2, by rw [h2]; rfl⟩

/-- Witness for C8 at a header-only frame. -/
theorem empty_csv_conflated_w :
    dashboard (.ok ⟨wCols, []⟩) ⟨[]⟩ = .ok (.plainText loadFailMessage)
    ∧ dashboard (.ok ⟨wCols, []⟩) ⟨[]⟩ = dashboard wMissing ⟨[]⟩ :=
  empty_csv_conflated ⟨wCols, []⟩ rfl ⟨[]⟩

/-- C9: the cleaning deletes every comma of a cell, not only well-formed
thousands separators: no comma survives `stripCommas`, and the malformed token
`1,2,3` is accepted and converted to `123`, while it would not parse at all
without the stripping. -/
theorem comma_stripping_total :
    (∀ s : String, (stripCommas s).data.all (fun c => c != ',') = true)
    ∧ cleanCell (Cell.str "1,2,3") = .ok (Cell.num 123)
    ∧ parseRat? "1,2,3" = none := by
  refine ⟨?_, by decide, by decide⟩
  intro s
  rw [List.all_eq_true]
  intro c hc
  have hc2 : c ∈ s.data.filter (fun x => x != ',') := hc
  exact (List.mem_filter.mp hc2).2

/-! ### Thousands-separated numerals (C3) -/

/-- Digit groups joined with comma separators: the spec-side description of a
numeral written with thousands separators. -/
def joinComma : List (List Char) → List Char
  | [] => []
  | [g] => g
  | g :: gs => g ++ ',' :: joinComma gs

/-- A cell holding the comma-separated rendering of digit groups. -/
def sepNumeralCell (gs : List (List Char)) : Cell := Cell.str (String.mk (joinComma gs))

/-- The underlying numeric value of a separated numeral: the value of its
digits read with the separators ignored. -/
def sepNumeralVal (gs : List (List Char)) : ℚ := ((digitsVal gs.flatten : ℕ) : ℚ)

/-- Wellformedness of the digit groups of a separated numeral. -/
def wfGroups (gs : List (List Char)) : Prop :=
  gs ≠ [] ∧ ∀ g ∈ gs, g ≠ [] ∧ g.all Char.isDigit = true

instance (gs : List (List Char)) : Decidable (wfGroups gs) := by
  unfold wfGroups
  infer_instance

theorem digit_ne_comma {c : Char} (h : c.isDigit = true) : (c != ',') = true := by
  by_contra hne
  rw [Bool.not_eq_true, bne_eq_false_iff_eq] at hne
  subst hne
  exact absurd h (by decide)

theorem digit_ne_dot {c : Char} (h : c.isDigit = true) : (c == '.') = false := by
  by_contra hne
  rw [Bool.not_eq_false, beq_iff_eq] at hne
  subst hne
  exact absurd h (by decide)

theorem digit_ne_minus {c : Char} (h : c.isDigit = true) : (c == '-') = false := by
  by_contra hne
  rw [Bool.not_eq_false, beq_iff_eq] at hne
  subst hne
  exact absurd h (by decide)

theorem digit_ne_plus {c : Char} (h : c.isDigit = true) : (c == '+') = false := by
  by_contra hne
  rw [Bool.not_eq_false, beq_iff_eq] at hne
  subst hne
  exact absurd h (by decide)

theorem joinComma_filter :
    ∀ gs : List (List Char), (∀ g ∈ gs, g.all Char.isDigit = true) →
      (joinComma gs).filter (fun c => c != ',') = gs.flatten
  | [], _ => rfl
  | [g], h => by
    have hg : ∀ c ∈ g, (c != ',') = true :=
      fun c hc => digit_ne_comma (List.all_eq_true.mp (h g (by simp)) c hc)
    simp [joinComma, List.filter_eq_self.mpr hg]
  | g :: g2 :: gs, h => by
    have hg : ∀ c ∈ g, (c != ',') = true :=
      fun c hc => digit_ne_comma (List.all_eq_true.mp (h g (by simp)) c hc)
    have ih := joinComma_filter (g2 :: gs) (fun x hx => h x (by simp [List.mem_cons] at hx ⊢; tauto))
    show List.filter (fun c => c != ',') (g ++ ',' :: joinComma (g2 :: gs)) = _
    rw [List.filter_append, List.filter_cons]
    simp only [bne_self_eq_false, if_false]
    rw [List.filter_eq_self.mpr hg, ih]
    rfl

theorem splitAtDot_no_dot :
    ∀ cs : List Char, (∀ c ∈ cs, (c == '.') = false) → splitAtDot cs = (cs, none)
  | [], _ => rfl
  | c :: cs, h => by
    have hc : (c == '.') = false := h c (by simp)
    have ih := splitAtDot_no_dot cs (fun x hx => h x (by simp [hx]))
    simp [splitAtDot, hc, ih]

theorem mkRat_ofNat_one (n : ℕ) : mkRat (Int.ofNat n) 1 = (n : ℚ) := by
  rw [Rat.mkRat_eq_div]
  push_cast
  simp

theorem parseRat_digits {cs : List Char} (hne : cs ≠ []) (hdig : cs.all Char.isDigit = true) :
    parseRat? (String.mk cs) = some ((digitsVal cs : ℕ) : ℚ) := by
  have hnodot : ∀ c ∈ cs, (c == '.') = false :=
    fun c hc => digit_ne_dot (List.all_eq_true.mp hdig c hc)
  have hunsig : parseUnsignedRat? cs = some ((digitsVal cs : ℕ) : ℚ) := by
    rw [parseUnsignedRat?]
    have hsplit : splitAtDot cs = (cs, none) := splitAtDot_no_dot cs hnodot
    rw [hsplit]
    have hisd : isDigits cs = true := by
      rw [isDigits]
      simp [hne, hdig]
    simp only [hisd, if_true]
    rw [mkRat_ofNat_one]
  cases cs with
  | nil => cases hne rfl
  | cons c rest =>
    have hc : c.isDigit = true := List.all_eq_true.mp hdig c (by simp)
    rw [parseRat?]
    show (if c == '-' then _ else if c == '+' then _ else parseUnsignedRat? (c :: rest)) = _
    rw [digit_ne_minus hc, digit_ne_plus hc]
    simpa using hunsig

theorem cleanCell_sepNumeral {gs : List (List Char)} (h : wfGroups gs) :
    cleanCell (sepNumeralCell gs) = .ok (Cell.num (sepNumeralVal gs)) := by
  have hdig : ∀ g ∈ gs, g.all Char.isDigit = true := fun g hg => (h.2 g hg).2
  have hstrip : stripCommas (Cell.pyStr (sepNumeralCell gs)) = String.mk gs.flatten := by
    rw [sepNumeralCell, Cell.pyStr, stripCommas]
    exact congrArg String.mk (joinComma_filter gs hdig)
  have hflatne : gs.flatten ≠ [] := by
    intro hnil
    rcases gs with _ | ⟨g, rest⟩
    · exact h.1 rfl
    · exact (h.2 g (by simp)).1 (List.flatten_eq_nil_iff.mp hnil g (by simp))
  have hflatdig : gs.flatten.all Char.isDigit = true := by
    rw [List.all_eq_true]
    intro c hc
    rcases List.mem_flatten.mp hc with ⟨g, hg, hcg⟩
    exact List.all_eq_true.mp (hdig g hg) c hcg
  rw [cleanCell, hstrip, parseRat_digits hflatne hflatdig]
  rfl

/-- C3: cleaning a column whose cells are numerals written with thousands
separators strips the separators and succeeds, and summing the cleaned column
yields exactly the sum of the underlying numeric values. -/
theorem thousands_sep_cleaning (name : String) (gss : List (List (List Char)))
    (h : ∀ gs ∈ gss, wfGroups gs) :
    ∃ df2, cleanCol ⟨[name], gss.map (fun gs => [sepNumeralCell gs])⟩ name = .ok df2
      ∧ colSum df2 name = .ok ((gss.map sepNumeralVal).sum) := by
  have hidx : colIdxAux name [name] = some 0 := by simp [colIdxAux]
  have hcells : getCol? ⟨[name], gss.map (fun gs => [sepNumeralCell gs])⟩ name
      = some (gss.map sepNumeralCell) := by
    rw [getCol?, colIdx, hidx, Option.map_some']
    rw [colAt]
    simp only [List.map_map]
    rfl
  cases gss with
  | nil =>
    refine ⟨⟨[name], []⟩, ?_, ?_⟩
    · rw [cleanCol, hcells]
      rfl
    · rw [colSum, colIdx, hidx]
      rfl
  | cons gs0 rest =>
    have hnotnum : ((gs0 :: rest).map sepNumeralCell).all Cell.isNum = false := by
      simp [sepNumeralCell, Cell.isNum]
    have hmap : mapExcept cleanCell ((gs0 :: rest).map sepNumeralCell)
        = .ok ((gs0 :: rest).map (fun gs => Cell.num (sepNumeralVal gs))) := by
      rw [mapExcept_map]
      exact mapExcept_pointwise _ _ _ (fun gs hg => cleanCell_sepNumeral (h gs hg))
    have hstep : cleanCol ⟨[name], (gs0 :: rest).map (fun gs => [sepNumeralCell gs])⟩ name
        = (if ((gs0 :: rest).map sepNumeralCell).all Cell.isNum = true
           then Except.ok ⟨[name], (gs0 :: rest).map (fun gs => [sepNumeralCell gs])⟩
           else do
             let cleaned ← mapExcept cleanCell ((gs0 :: rest).map sepNumeralCell)
             Except.ok (setCol ⟨[name], (gs0 :: rest).map (fun gs => [sepNumeralCell gs])⟩
               name cleaned)) := by
      rw [cleanCol, hcells]
    refine ⟨setCol ⟨[name], (gs0 :: rest).map (fun gs => [sepNumeralCell gs])⟩ name
        ((gs0 :: rest).map (fun gs => Cell.num (sepNumeralVal gs))), ?_, ?_⟩
    · rw [hstep, hnotnum]
      simp only [Bool.false_eq_true, if_false, hmap, bind, Except.bind]
    · have hrows2 : (setCol ⟨[name], (gs0 :: rest).map (fun gs => [sepNumeralCell gs])⟩ name
          ((gs0 :: rest).map (fun gs => Cell.num (sepNumeralVal gs))))
          = ⟨[name], (gs0 :: rest).map (fun gs => [Cell.num (sepNumeralVal gs)])⟩ := by
        rw [setCol, colIdx]
        simp only [hidx]
        rw [List.zip_map', List.map_map]
        rfl
      rw [hrows2, colSum, colIdx, hidx]
      have hall : (colAt ⟨[name], (gs0 :: rest).map (fun gs => [Cell.num (sepNumeralVal gs)])⟩
          0).all Cell.isNum = true := by
        rw [colAt, List.all_eq_true]
        intro x hx
        rcases List.mem_map.mp hx with ⟨r, hr, rfl⟩
        rcases List.mem_map.mp hr with ⟨gs, _, rfl⟩
        rfl
      have hcol : colAt ⟨[name], (gs0 :: rest).map (fun gs => [Cell.num (sepNumeralVal gs)])⟩ 0
          = (gs0 :: rest).map (fun gs => Cell.num (sepNumeralVal gs)) := by
        rw [colAt, List.map_map]
        rfl
      show (if _ then _ else _) = _
      rw [if_pos hall, hcol, List.map_map]
      rw [show (Cell.toNumD 0 ∘ fun gs => Cell.num (sepNumeralVal gs)) = sepNumeralVal from rfl]
      rw [qsum_eq]

/-- Witness for C3 at the two-cell column of the numerals 1,200 and 2,400. -/
theorem thousands_sep_cleaning_w :
    ∃ df2, cleanCol ⟨["Total Price"],
        ([[['1'], ['2', '0', '0']], [['2'], ['4', '0', '0']]]).map
          (fun gs => [sepNumeralCell gs])⟩ "Total Price" = .ok df2
      ∧ colSum df2 "Total Price"
          = .ok ((([[['1'], ['2', '0', '0']], [['2'], ['4', '0', '0']]]).map sepNumeralVal).sum) :=
  thousands_sep_cleaning "Total Price" [[['1'], ['2', '0', '0']], [['2'], ['4', '0', '0']]]
    (by decide)

/-! ### Frame lemmas for the loader (C10) -/

theorem map_zip_set_ne {i j : ℕ} (hne : i ≠ j) (rows : List (List Cell)) :
    ∀ vals : List Cell, rows.length = vals.length →
      (rows.zip vals).map (fun p => cellAt j (p.1.set i p.2)) = rows.map (cellAt j) := by
  induction rows with
  | nil => intro vals _; rfl
  | cons r rs ih =>
    intro vals h
    cases vals with
    | nil => simp at h
    | cons v vs =>
      simp only [List.zip_cons_cons, List.map_cons]
      rw [cellAt_set_ne hne, ih vs (by simpa using h)]

theorem map_zip_append_cell {j L : ℕ} (hlt : j < L) (rows : List (List Cell)) :
    ∀ vals : List Cell, (∀ r ∈ rows, r.length = L) → rows.length = vals.length →
      (rows.zip vals).map (fun p => cellAt j (p.1 ++ [p.2])) = rows.map (cellAt j) := by
  induction rows with
  | nil => intro vals _ _; rfl
  | cons r rs ih =>
    intro vals hwf h
    cases vals with
    | nil => simp at h
    | cons v vs =>
      simp only [List.zip_cons_cons, List.map_cons]
      rw [cellAt_append_lt r v (by rw [hwf r (by simp)]; exact hlt),
        ih vs (fun x hx => hwf x (by simp [hx])) (by simpa using h)]

theorem setCol_cols_some {df : DataFrame} {c : String} {i : ℕ} (hi : colIdx df c = some i)
    (vals : List Cell) : (setCol df c vals).cols = df.cols := by
  rw [setCol, hi]

theorem setCol_cols_none {df : DataFrame} {c : String} (hi : colIdx df c = none)
    (vals : List Cell) : (setCol df c vals).cols = df.cols ++ [c] := by
  rw [setCol, hi]

theorem setCol_rows_length {df : DataFrame} (c : String) (vals : List Cell)
    (hlen : vals.length = df.rows.length) : (setCol df c vals).rows.length = df.rows.length := by
  rw [setCol]
  cases colIdx df c <;> simp [List.length_zip, hlen]

theorem setCol_wf {df : DataFrame} {c : String} {vals : List Cell}
    (hwf : ∀ r ∈ df.rows, r.length = df.cols.length) :
    ∀ r ∈ (setCol df c vals).rows, r.length = (setCol df c vals).cols.length := by
  rw [setCol]
  cases colIdx df c with
  | some i =>
    intro r hr
    simp only [List.mem_map] at hr
    rcases hr with ⟨p, hp, rfl⟩
    obtain ⟨a, b⟩ := p
    rw [List.length_set]
    exact hwf a (List.of_mem_zip hp).1
  | none =>
    intro r hr
    simp only [List.mem_map] at hr
    rcases hr with ⟨p, hp, rfl⟩
    obtain ⟨a, b⟩ := p
    simp only [List.length_append, List.length_cons, List.length_nil]
    rw [hwf a (List.of_mem_zip hp).1]

theorem colIdx_some_mem {df : DataFrame} {c : String} {i : ℕ} (hi : colIdx df c = some i) :
    c ∈ df.cols := by
  by_contra hnot
  rw [colIdx, (colIdxAux_none_iff c df.cols).mpr hnot] at hi
  cases hi

theorem getCol?_setCol_ne {df : DataFrame} {c : String} {vals : List Cell} (c' : String)
    (hne : c' ≠ c) (hlen : vals.length = df.rows.length)
    (hwf : ∀ r ∈ df.rows, r.length = df.cols.length) :
    getCol? (setCol df c vals) c' = getCol? df c' := by
  rw [setCol]
  cases hi : colIdx df c with
  | some i =>
    rw [getCol?, getCol?, colIdx, colIdx]
    cases hj : colIdxAux c' df.cols with
    | none => rfl
    | some j =>
      rw [Option.map_some', Option.map_some']
      congr 1
      rw [colAt, colAt]
      have hij : i ≠ j := by
        intro he
        rcases colIdxAux_some_getD c df.cols i hi with ⟨_, hgc⟩
        rcases colIdxAux_some_getD c' df.cols j hj with ⟨_, hgc'⟩
        rw [he] at hgc
        exact hne (hgc'.symm.trans hgc)
      show List.map (cellAt j) (List.map (fun p => p.1.set i p.2) (df.rows.zip vals)) = _
      rw [List.map_map]
      exact map_zip_set_ne hij df.rows vals hlen.symm
  | none =>
    rw [getCol?, getCol?, colIdx, colIdx]
    show (colIdxAux c' (df.cols ++ [c])).map _ = _
    rw [colIdxAux_append_ne c c' hne df.cols]
    cases hj : colIdxAux c' df.cols with
    | none => rfl
    | some j =>
      rw [Option.map_some', Option.map_some']
      congr 1
      rw [colAt, colAt]
      rcases colIdxAux_some_getD c' df.cols j hj with ⟨hjlt, _⟩
      show List.map (cellAt j) (List.map (fun p => p.1 ++ [p.2]) (df.rows.zip vals)) = _
      rw [List.map_map]
      exact map_zip_append_cell hjlt df.rows vals hwf hlen.symm

theorem getCol?_some_colIdx {df : DataFrame} {c : String} {cells : List Cell}
    (hg : getCol? df c = some cells) : ∃ i, colIdx df c = some i ∧ cells = colAt df i := by
  rw [getCol?] at hg
  cases hi : colIdx df c with
  | none => rw [hi] at hg; cases hg
  | some i => rw [hi] at hg; cases hg; exact ⟨i, rfl, rfl⟩

theorem colAt_length (df : DataFrame) (i : ℕ) : (colAt df i).length = df.rows.length := by
  rw [colAt, List.length_map]

theorem cleanCol_cases {df df2 : DataFrame} {c : String} (h : cleanCol df c = .ok df2) :
    df2 = df ∨ ∃ cells cleaned, getCol? df c = some cells
      ∧ mapExcept cleanCell cells = .ok cleaned ∧ df2 = setCol df c cleaned := by
  rw [cleanCol] at h
  cases hg : getCol? df c with
  | none => rw [hg] at h; cases h; exact Or.inl rfl
  | some cells =>
    rw [hg] at h
    have h2 : (if cells.all Cell.isNum = true then Except.ok df
        else do
          let cleaned ← mapExcept cleanCell cells
          Except.ok (setCol df c cleaned)) = Except.ok df2 := h
    by_cases hall : cells.all Cell.isNum = true
    · rw [if_pos hall] at h2
      cases h2
      exact Or.inl rfl
    · rw [if_neg hall] at h2
      cases hm : mapExcept cleanCell cells with
      | error e =>
        rw [hm] at h2
        cases h2
      | ok cleaned =>
        rw [hm] at h2
        simp only [bind, Except.bind] at h2
        cases h2
        exact Or.inr ⟨cells, cleaned, rfl, hm, rfl⟩

theorem cleanCol_numeric_id {df : DataFrame} {c : String} {cells : List Cell}
    (hg : getCol? df c = some cells) (hall : cells.all Cell.isNum = true) :
    cleanCol df c = .ok df := by
  rw [cleanCol, hg]
  have h2 : (if cells.all Cell.isNum = true then Except.ok df
      else do
        let cleaned ← mapExcept cleanCell cells
        Except.ok (setCol df c cleaned)) = Except.ok df := by rw [if_pos hall]
  exact h2

theorem cleanCol_frame {df df2 : DataFrame} {c : String}
    (hwf : ∀ r ∈ df.rows, r.length = df.cols.length)
    (h : cleanCol df c = .ok df2) :
    df2.cols = df.cols
    ∧ (∀ r ∈ df2.rows, r.length = df2.cols.length)
    ∧ df2.rows.length = df.rows.length
    ∧ (∀ c', c' ≠ c → getCol? df2 c' = getCol? df c') := by
  rcases cleanCol_cases h with rfl | ⟨cells, cleaned, hg, hm, rfl⟩
  · exact ⟨rfl, hwf, rfl, fun _ _ => rfl⟩
  · rcases getCol?_some_colIdx hg with ⟨i, hi, hc⟩
    have hlen : cleaned.length = df.rows.length := by
      rw [mapExcept_ok_length _ hm, hc, colAt_length]
    refine ⟨setCol_cols_some hi cleaned, setCol_wf hwf, setCol_rows_length c cleaned hlen, ?_⟩
    intro c' hc'
    exact getCol?_setCol_ne c' hc' hlen hwf

theorem cleanNumericCols_ok_inv {df df4 : DataFrame} (h : cleanNumericCols df = .ok df4) :
    ∃ d1 d2 d3, cleanCol df "Total Price" = .ok d1
      ∧ cleanCol d1 "Total Cost" = .ok d2
      ∧ cleanCol d2 "Expense Amount" = .ok d3
      ∧ cleanCol d3 "Outstanding Balance" = .ok df4 := by
  rw [cleanNumericCols, colsToClean] at h
  simp only [List.foldlM, bind, Except.bind] at h
  cases h1 : cleanCol df "Total Price" with
  | error e => rw [h1] at h; cases h
  | ok d1 =>
  rw [h1] at h
  simp only [] at h
  cases h2 : cleanCol d1 "Total Cost" with
  | error e => rw [h2] at h; cases h
  | ok d2 =>
  rw [h2] at h
  simp only [] at h
  cases h3 : cleanCol d2 "Expense Amount" with
  | error e => rw [h3] at h; cases h
  | ok d3 =>
  rw [h3] at h
  simp only [] at h
  cases h4 : cleanCol d3 "Outstanding Balance" with
  | error e => rw [h4] at h; cases h
  | ok d4 =>
  rw [h4] at h
  simp only [] at h
  cases h
  exact ⟨d1, d2, d3, rfl, h2, h3, h4⟩

theorem convertDates_frame {df df2 : DataFrame}
    (hwf : ∀ r ∈ df.rows, r.length = df.cols.length)
    (h : convertDates df = .ok df2) :
    (∀ c', c' ≠ "Order Date" → c' ≠ "Month_Year" → getCol? df2 c' = getCol? df c')
    ∧ (∀ c, c ∈ df2.cols ↔ (c ∈ df.cols ∨ (c = "Month_Year" ∧ "Order Date" ∈ df.cols))) := by
  rw [convertDates] at h
  cases hg : getCol? df "Order Date" with
  | none =>
    rw [hg] at h
    cases h
    have hOD : "Order Date" ∉ df.cols := by
      rw [getCol?] at hg
      cases hi : colIdx df "Order Date" with
      | none => exact (colIdxAux_none_iff _ _).mp hi
      | some i => rw [hi] at hg; cases hg
    refine ⟨fun _ _ _ => rfl, fun c => ?_⟩
    constructor
    · exact Or.inl
    · rintro (hc | ⟨_, hin⟩)
      · exact hc
      · exact absurd hin hOD
  | some cells =>
    rw [hg] at h
    rcases getCol?_some_colIdx hg with ⟨i, hi, hcells⟩
    have h2 : Except.bind (mapExcept dateCell? cells) (fun dates =>
        Except.ok (setCol (setCol df "Order Date"
          (dates.map (fun t => Cell.date t.1 t.2.1 t.2.2))) "Month_Year"
          (dates.map (fun t => Cell.str (formatYM t.1 t.2.1))))) = Except.ok df2 := h
    clear h
    cases hm : mapExcept dateCell? cells with
    | error e => rw [hm] at h2; cases h2
    | ok dates =>
    rw [hm] at h2
    simp only [Except.bind] at h2
    cases h2
    have hdlen : dates.length = df.rows.length := by
      rw [mapExcept_ok_length _ hm, hcells, colAt_length]
    have hodlen : (dates.map (fun t => Cell.date t.1 t.2.1 t.2.2)).length = df.rows.length := by
      rw [List.length_map, hdlen]
    have hcols1 : (setCol df "Order Date" (dates.map (fun t => Cell.date t.1 t.2.1 t.2.2))).cols
        = df.cols := setCol_cols_some hi _
    have hwf1 : ∀ r ∈ (setCol df "Order Date"
        (dates.map (fun t => Cell.date t.1 t.2.1 t.2.2))).rows,
        r.length = (setCol df "Order Date"
          (dates.map (fun t => Cell.date t.1 t.2.1 t.2.2))).cols.length := setCol_wf hwf
    have hlen1 : (setCol df "Order Date"
        (dates.map (fun t => Cell.date t.1 t.2.1 t.2.2))).rows.length = df.rows.length :=
      setCol_rows_length _ _ hodlen
    have hmylen : (dates.map (fun t => Cell.str (formatYM t.1 t.2.1))).length
        = (setCol df "Order Date" (dates.map (fun t => Cell.date t.1 t.2.1 t.2.2))).rows.length := by
      rw [List.length_map, hdlen, hlen1]
    have hODin : "Order Date" ∈ df.cols := colIdx_some_mem hi
    constructor
    · intro c' hOD hMY
      rw [getCol?_setCol_ne c' hMY hmylen hwf1]
      exact getCol?_setCol_ne c' hOD hodlen hwf
    · intro c
      cases hmyi : colIdx (setCol df "Order Date"
          (dates.map (fun t => Cell.date t.1 t.2.1 t.2.2))) "Month_Year" with
      | some k =>
        rw [setCol_cols_some hmyi _, hcols1]
        have hMYin : "Month_Year" ∈ df.cols := by
          have := colIdx_some_mem hmyi
          rwa [hcols1] at this
        constructor
        · exact Or.inl
        · rintro (hc | ⟨rfl, _⟩)
          · exact hc
          · exact hMYin
      | none =>
        rw [setCol_cols_none hmyi _, hcols1]
        simp only [List.mem_append, List.mem_singleton]
        constructor
        · rintro (hc | rfl)
          · exact Or.inl hc
          · exact Or.inr ⟨rfl, hODin⟩
        · rintro (hc | ⟨rfl, _⟩)
          · exact Or.inl hc
          · exact Or.inr rfl

/-- C10: on a successful load, `load_data` transforms only the four named
numeric columns — and leaves such a column as-is when its dtype is already
numeric — converts `Order Date` in place, and adds `Month_Year`; every other
column is returned unchanged, and the resulting column set is the input one
plus `Month_Year` (when `Order Date` is present). -/
theorem load_data_frame (df0 df1 : DataFrame)
    (hwf : ∀ r ∈ df0.rows, r.length = df0.cols.length)
    (h : loadSteps (.ok df0) = .ok df1) :
    (∀ c, c ∉ colsToClean → c ≠ "Order Date" → c ≠ "Month_Year" →
      getCol? df1 c = getCol? df0 c)
    ∧ (∀ c cells, c ∈ colsToClean → getCol? df0 c = some cells →
      cells.all Cell.isNum = true → getCol? df1 c = getCol? df0 c)
    ∧ (∀ c, c ∈ df1.cols ↔ (c ∈ df0.cols ∨ (c = "Month_Year" ∧ "Order Date" ∈ df0.cols))) := by
  have hsplit : ∃ dfc, cleanNumericCols df0 = .ok dfc ∧ convertDates dfc = .ok df1 := by
    rw [loadSteps] at h
    simp only [bind, Except.bind] at h
    cases hcn : cleanNumericCols df0 with
    | error e => rw [hcn] at h; cases h
    | ok dfc =>
      rw [hcn] at h
      simp only [] at h
      exact ⟨dfc, rfl, h⟩
  rcases hsplit with ⟨dfc, hclean, hdates⟩
  rcases cleanNumericCols_ok_inv hclean with ⟨d1, d2, d3, h1, h2, h3, h4⟩
  have f1 := cleanCol_frame hwf h1
  have f2 := cleanCol_frame f1.2.1 h2
  have f3 := cleanCol_frame f2.2.1 h3
  have f4 := cleanCol_frame f3.2.1 h4
  have hcolsc : dfc.cols = df0.cols := by rw [f4.1, f3.1, f2.1, f1.1]
  have fd := convertDates_frame f4.2.1 hdates
  have hcleanframe : ∀ c, c ≠ "Total Price" → c ≠ "Total Cost" → c ≠ "Expense Amount" →
      c ≠ "Outstanding Balance" → getCol? dfc c = getCol? df0 c := by
    intro c hTP hTC hEA hOB
    rw [f4.2.2.2 c hOB, f3.2.2.2 c hEA, f2.2.2.2 c hTC, f1.2.2.2 c hTP]
  refine ⟨?_, ?_, ?_⟩
  · intro c hc hOD hMY
    simp only [colsToClean, List.mem_cons, List.not_mem_nil, or_false, not_or] at hc
    rw [fd.1 c hOD hMY]
    exact hcleanframe c hc.1 hc.2.1 hc.2.2.1 hc.2.2.2
  · intro c cells hc hg hall
    have hODMY : c ≠ "Order Date" ∧ c ≠ "Month_Year" := by
      simp only [colsToClean, List.mem_cons, List.not_mem_nil, or_false] at hc
      rcases hc with rfl | rfl | rfl | rfl <;> exact ⟨by decide, by decide⟩
    rw [fd.1 c hODMY.1 hODMY.2]
    simp only [colsToClean, List.mem_cons, List.not_mem_nil, or_false] at hc
    rcases hc with rfl | rfl | rfl | rfl
    · have hid : cleanCol df0 "Total Price" = .ok df0 := cleanCol_numeric_id hg hall
      rw [h1] at hid
      have hd1 : d1 = df0 := Except.ok.inj hid
      subst hd1
      rw [f4.2.2.2 _ (by decide), f3.2.2.2 _ (by decide), f2.2.2.2 _ (by decide)]
    · have hg1 : getCol? d1 "Total Cost" = some cells := by
        rw [f1.2.2.2 _ (by decide)]
        exact hg
      have hid : cleanCol d1 "Total Cost" = .ok d1 := cleanCol_numeric_id hg1 hall
      rw [h2] at hid
      have hd2 : d2 = d1 := Except.ok.inj hid
      subst hd2
      rw [f4.2.2.2 _ (by decide), f3.2.2.2 _ (by decide), f1.2.2.2 _ (by decide)]
    · have hg2 : getCol? d2 "Expense Amount" = some cells := by
        rw [f2.2.2.2 _ (by decide), f1.2.2.2 _ (by decide)]
        exact hg
      have hid : cleanCol d2 "Expense Amount" = .ok d2 := cleanCol_numeric_id hg2 hall
      rw [h3] at hid
      have hd3 : d3 = d2 := Except.ok.inj hid
      subst hd3
      rw [f4.2.2.2 _ (by decide), f2.2.2.2 _ (by decide), f1.2.2.2 _ (by decide)]
    · have hg3 : getCol? d3 "Outstanding Balance" = some cells := by
        rw [f3.2.2.2 _ (by decide), f2.2.2.2 _ (by decide), f1.2.2.2 _ (by decide)]
        exact hg
      have hid : cleanCol d3 "Outstanding Balance" = .ok d3 := cleanCol_numeric_id hg3 hall
      rw [h4] at hid
      have hdc : dfc = d3 := Except.ok.inj hid
      subst hdc
      rw [f3.2.2.2 _ (by decide), f2.2.2.2 _ (by decide), f1.2.2.2 _ (by decide)]
  · intro c
    rw [fd.2 c, hcolsc]

/-- The frame produced by loading the fixture. -/
def wLoaded : DataFrame := load_data (.ok wDf)

/-- Witness for C10: loading the fixture leaves the `City` column unchanged. -/
theorem load_data_frame_w : getCol? wLoaded "City" = getCol? wDf "City" :=
  (load_data_frame wDf wLoaded (by decide) (by decide)).1 "City"
    (by decide) (by decide) (by decide)

end AmmsaSales
